import Mathlib

/-!
Shallow embedding of the SEIR epidemic model engine (`SEIR/seir.py` and the
restriction composer in `SEIR/parser/restrictions_section_parser.py`) over the
rationals.  Vectors are `List ℚ`, matrices are row-major `List (List ℚ)`,
NumPy's NaN cells are modelled as `Option ℚ` (`none` = NaN / masked).
-/

set_option allowUnsafeReducibility true
attribute [local semireducible] Rat.mul Rat.inv Rat.add Rat.sub Rat.neg Rat.div

namespace SEIRModel

/-- Dot product of two vectors, `np.dot` / `@` on 1-d arrays. -/
def dotVec (a b : List ℚ) : ℚ :=
  (List.zipWith (· * ·) a b).sum

/-- A parameter that may be a scalar (broadcast) or a per-compartment vector,
mirroring the Python `Union[int, float, np.ndarray]` inputs. -/
inductive Param where
  | scalar (x : ℚ)
  | vec (xs : List ℚ)
deriving DecidableEq, Repr

/-- `SEIR._fix_size`: a scalar becomes `np.ones(num_compartments) * x`
(i.e. `List.replicate n x`); an array is returned unchanged when its size is
`n` and the assertion fails (modelled as `none`) otherwise.  A list input is
first converted to an array, which does not change its entries. -/
def fixSize (n : ℕ) : Param → Option (List ℚ)
  | .scalar x => some (List.replicate n x)
  | .vec xs => if xs.length = n then some xs else none

/-- `SEIR._compute_infectivity_matrix`:
`normalization = 1/infectious_period * initial_R0 * population.sum() /
(population @ contacts_matrix).sum()`, and the result is
`normalization * 0.5 * (contacts_matrix + contacts_matrix.T)`.
With a per-compartment (vector) infectious period, NumPy broadcasting of a
shape-`(n,)` vector against a shape-`(n,n)` matrix applies the vector along
each row, so entry `(i, j)` is scaled by `normalization[j]`.
`(population @ contacts_matrix).sum()` equals the dot product of the
population vector with the row sums of the contact matrix. -/
def computeInfectivityMatrix (n : ℕ) (infectious_period : List ℚ) (initial_R0 : ℚ)
    (population : List ℚ) (contacts_matrix : List (List ℚ)) : List (List ℚ) :=
  (List.range n).map (fun i =>
    (List.range n).map (fun j =>
      (1 / infectious_period.getD j 0) * initial_R0 * population.sum /
        (dotVec population (contacts_matrix.map List.sum)) *
        (1 / 2 * ((contacts_matrix.getD i []).getD j 0 +
                  (contacts_matrix.getD j []).getD i 0))))

/-- The value a restriction function returns: `Union[float, np.ndarray]`. -/
inductive Modifier where
  | scalar (x : ℚ)
  | matrix (M : List (List ℚ))
deriving DecidableEq, Repr

/-- `np.multiply` on restriction-modifier values: scalar × scalar multiplies,
scalar × matrix broadcasts over every entry, matrix × matrix is elementwise. -/
def mulModifier : Modifier → Modifier → Modifier
  | .scalar a, .scalar b => .scalar (a * b)
  | .scalar a, .matrix M => .matrix (M.map (fun row => row.map (fun x => a * x)))
  | .matrix M, .scalar b => .matrix (M.map (fun row => row.map (fun x => x * b)))
  | .matrix A, .matrix B => .matrix (List.zipWith (List.zipWith (· * ·)) A B)

/-- The closure `restrictions_function` built by `_parse_restriction_section`:
returns the parsed modifier when `day_begins <= t <= day_ends` and `1.0`
otherwise. -/
def restrictionWindowFunction (day_begins day_ends : ℚ) (inf_modifier : Modifier)
    (t : ℚ) : Modifier :=
  if day_begins ≤ t ∧ t ≤ day_ends then inf_modifier else .scalar 1

/-- The composition step of `parse_restriction_sections`: zero parsed
restriction functions yield `None`, one is returned directly, and with many
the combined closure folds `np.multiply` over all of them starting from
`modif = 1.0`. -/
def composeRestrictions (restr_funs : List (ℚ → Modifier)) : Option (ℚ → Modifier) :=
  match restr_funs with
  | [] => none
  | [f] => some f
  | _ =>
    some (fun t => restr_funs.foldl (fun modif fn => mulModifier modif (fn t)) (.scalar 1))

/-- How `SEIR.__call__` consumes the (optional) restrictions function: when it
is `None` the infectivity matrix is used unmodified, which is the same as
multiplying by the constant `1.0`. -/
def effectiveModifier (restrictions : Option (ℚ → Modifier)) (t : ℚ) : Modifier :=
  match restrictions with
  | none => .scalar 1
  | some f => f t

/-- Hadamard application `np.multiply(restrictions_function(t), infectivity_matrix)`
writing the result into the scratch matrix `_inf_matrix`. -/
def applyModifier (m : Modifier) (M : List (List ℚ)) : List (List ℚ) :=
  match m with
  | .scalar a => M.map (fun row => row.map (fun x => a * x))
  | .matrix A => List.zipWith (List.zipWith (· * ·)) A M

/-- The model state the `SEIR.__call__` right-hand side reads. -/
structure ModelP where
  n : ℕ
  population : List ℚ
  incubation_period : List ℚ
  infectious_period : List ℚ
  infectivity_matrix : List (List ℚ)
  restrictions : Option (ℚ → Modifier)
  imported : Option (ℚ → List ℚ × List ℚ × List ℚ)

/-- `SEIR.__call__(t, Y)`: computes `dY/dt`.  `Y` is laid out as four
contiguous blocks `[S, E, I, R]` of length `n`.  The effective infectivity
matrix is the cached one, Hadamard-multiplied by `restrictions_function(t)`
when a restrictions function is present; `dS/dt = -(S/population) *
(_inf_matrix @ I)`, `dE/dt = -dS/dt - E/incubation`, `dI/dt = E/incubation -
I/infectious`, `dR/dt = I/infectious`; when an imported-cases function is
present its three vectors are added to `dS`, `dE`, `dI`. -/
def seirCall (p : ModelP) (t : ℚ) (Y : List ℚ) : List ℚ :=
  let infM := match p.restrictions with
    | none => p.infectivity_matrix
    | some f => applyModifier (f t) p.infectivity_matrix
  let Sa := Y.take p.n
  let Ea := (Y.drop p.n).take p.n
  let Ia := (Y.drop (2 * p.n)).take p.n
  let dS := (List.range p.n).map (fun a =>
    -(Sa.getD a 0 / p.population.getD a 0) * dotVec (infM.getD a []) Ia)
  let dE := (List.range p.n).map (fun a =>
    -(dS.getD a 0) - Ea.getD a 0 / p.incubation_period.getD a 0)
  let dI := (List.range p.n).map (fun a =>
    Ea.getD a 0 / p.incubation_period.getD a 0 - Ia.getD a 0 / p.infectious_period.getD a 0)
  let dR := (List.range p.n).map (fun a => Ia.getD a 0 / p.infectious_period.getD a 0)
  match p.imported with
  | none => dS ++ dE ++ dI ++ dR
  | some f =>
    let DSEI := f t
    (List.zipWith (· + ·) dS DSEI.1) ++ (List.zipWith (· + ·) dE DSEI.2.1) ++
      (List.zipWith (· + ·) dI DSEI.2.2) ++ dR

/-- The closure `SEIR_solution` created by `SEIR.simulate`: for a query array
`ts`, `postime_mask = time >= t0`; if every entry is `>= t0` the dense solution
`sol` is evaluated on the whole array; if none is, `Y0` is repeated
`time.size` times; otherwise the repeated-`Y0` rows are stacked on top of the
dense rows of the `>= t0` entries (`np.vstack([negsol, possol])`).  The dense
interpolant `sol` is abstract here (an arbitrary function of time). -/
def SEIRsol (sol : ℚ → List ℚ) (Y0 : List ℚ) (t0 : ℚ) (ts : List ℚ) : List (List ℚ) :=
  let c := ts.countP (fun t => decide (t0 ≤ t))
  if c = ts.length then ts.map sol
  else if c = 0 then List.replicate ts.length Y0
  else List.replicate (ts.length - c) Y0 ++ (ts.filter (fun t => decide (t0 ≤ t))).map sol

/-- `np.multiply(param, population)` used by `set_initial_state` when
`probabilities=True`: a scalar broadcasts; a vector must have the same length
(NumPy raises on a 1-d length mismatch, modelled as `none`). -/
def paramMulPop (x : Param) (population : List ℚ) : Option (List ℚ) :=
  match x with
  | .scalar a => some (population.map (fun p => a * p))
  | .vec xs => if xs.length = population.length then
      some (List.zipWith (· * ·) xs population) else none

/-- `SEIR.set_initial_state`: with `probabilities=True` the exposed/infected
counts are `np.multiply(arg, population)`; with `probabilities=False` a scalar
argument is broadcast by `_fix_size` and then divided by `num_compartments`,
while a vector argument must have length `n` (assertion) and is used
unchanged.  Then `susceptible = population - exposed - infected`,
`removed = zeros`, and `Y0 = concat [S, E, I, R]`. -/
def setInitialState (n : ℕ) (population : List ℚ)
    (population_exposed population_infected : Param) (probabilities : Bool) :
    Option (List ℚ) := do
  let exposed ← if probabilities then paramMulPop population_exposed population
    else match population_exposed with
      | .scalar x => some ((List.replicate n x).map (fun v => v / (n : ℚ)))
      | .vec xs => if xs.length = n then some xs else none
  let infected ← if probabilities then paramMulPop population_infected population
    else match population_infected with
      | .scalar x => some ((List.replicate n x).map (fun v => v / (n : ℚ)))
      | .vec xs => if xs.length = n then some xs else none
  let susceptible := List.zipWith (· - ·) (List.zipWith (· - ·) population exposed) infected
  let removed := List.replicate n (0 : ℚ)
  return susceptible ++ exposed ++ infected ++ removed

/-- Everything `SEIR.__init__` stores after its size-fixing and assertions. -/
structure SEIRState where
  n : ℕ
  incubation_period : List ℚ
  infectious_period : List ℚ
  initial_R0 : ℚ
  hospitalization_probability : List ℚ
  hospitalization_duration : ℚ
  hospitalization_lag_from_onset : ℚ
  icu_probability : List ℚ
  icu_duration : ℚ
  icu_lag_from_onset : ℚ
  death_probability : List ℚ
  death_lag_from_onset : ℚ
  population : List ℚ
  infectivity_matrix : List (List ℚ)
deriving DecidableEq, Repr

/-- `SEIR.__init__`: the compartment count defaults to one (`['All']`);
vector-valued parameters pass through `_fix_size` (assertion on a size
mismatch, modelled as `none`); a scalar population additionally asserts
`num_compartments == 1` and a vector population asserts `size == n`; a
supplied contact matrix asserts shape `(n, n)` and an omitted one defaults to
`np.ones((n, n))`; the infectivity matrix is computed once.  No duration,
period, lag or probability value is range-checked anywhere in the
constructor. -/
def seirInit (compartments : Option (List String))
    (incubation_period infectious_period : Param) (initial_R0 : ℚ)
    (hospitalization_probability : Param) (hospitalization_duration : ℚ)
    (hospitalization_lag_from_onset : ℚ) (icu_probability : Param)
    (icu_duration icu_lag_from_onset : ℚ) (death_probability : Param)
    (death_lag_from_onset : ℚ) (population : Param)
    (contacts_matrix : Option (List (List ℚ))) : Option SEIRState := do
  let n := (compartments.getD ["All"]).length
  let incubation ← fixSize n incubation_period
  let infectious ← fixSize n infectious_period
  let hospProb ← fixSize n hospitalization_probability
  let icuProb ← fixSize n icu_probability
  let deathProb ← fixSize n death_probability
  let pop ← match population with
    | .scalar x => if n = 1 then fixSize n (.scalar x) else none
    | .vec xs => if xs.length = n then fixSize n (.vec xs) else none
  let C ← match contacts_matrix with
    | some M => if M.length = n ∧ M.all (fun row => row.length = n) then some M else none
    | none => some (List.replicate n (List.replicate n (1 : ℚ)))
  return { n := n, incubation_period := incubation, infectious_period := infectious,
           initial_R0 := initial_R0, hospitalization_probability := hospProb,
           hospitalization_duration := hospitalization_duration,
           hospitalization_lag_from_onset := hospitalization_lag_from_onset,
           icu_probability := icuProb, icu_duration := icu_duration,
           icu_lag_from_onset := icu_lag_from_onset, death_probability := deathProb,
           death_lag_from_onset := death_lag_from_onset, population := pop,
           infectivity_matrix := computeInfectivityMatrix n infectious initial_R0 pop C }

/-- `np.arange(start, stop, step)` for a positive step: the values
`start + k*step` for `k = 0, …, ⌈(stop-start)/step⌉ - 1`. -/
def arange (start stop step : ℚ) : List ℚ :=
  (List.range (if 0 < step then (⌈(stop - start) / step⌉).toNat else 0)).map
    (fun k => start + (k : ℚ) * step)

/-- `.min()` of a NumPy array (here of a list, with `0` for the empty list). -/
def listMin (xs : List ℚ) : ℚ := xs.foldl min (xs.headD 0)

/-- `.max()` of a NumPy array (here of a list, with `0` for the empty list). -/
def listMax (xs : List ℚ) : ℚ := xs.foldl max (xs.headD 0)

/-- Full discrete convolution, `np.convolve(a, v, mode='full')`:
`out[k] = Σ_j a[j] * v[k - j]`, of length `a.length + v.length - 1`. -/
def convFull (a v : List ℚ) : List ℚ :=
  (List.range (a.length + v.length - 1)).map (fun k =>
    ((List.range (k + 1)).map (fun j => a.getD j 0 * v.getD (k - j) 0)).sum)

/-- `np.convolve(a, v, mode='same')`: the centered `max(a.length, v.length)`
slice of the full convolution, starting at offset `(v.length - 1) / 2`. -/
def convSame (a v : List ℚ) : List ℚ :=
  ((convFull a v).drop ((v.length - 1) / 2)).take (max a.length v.length)

/-- Column `i` of a row-major time × compartment matrix. -/
def colOf (M : List (List ℚ)) (i : ℕ) : List ℚ := M.map (fun row => row.getD i 0)

/-- `scipy.integrate.cumtrapz(f, x=x, initial=0)` on one column:
`out[0] = 0`, `out[k] = Σ_{m≤k} (x[m] - x[m-1]) * (f[m] + f[m-1]) / 2`. -/
def cumtrapzL (f x : List ℚ) : List ℚ :=
  (List.range x.length).map (fun k =>
    ((List.range k).map (fun m =>
      (x.getD (m + 1) 0 - x.getD m 0) * (f.getD (m + 1) 0 + f.getD m 0) / 2)).sum)

/-- `np.fabs(xs - c).argmin()`: the first index of a minimal `|xs[k] - c|`. -/
def argminAbs (xs : List ℚ) (c : ℚ) : ℕ :=
  (List.range xs.length).foldl
    (fun best k => if |xs.getD k 0 - c| < |xs.getD best 0 - c| then k else best) 0

/-- The lagged new-cases rate used for hospitalization, ICU and deaths:
`prob * (block of SEIR_solution(ts - lag)) / incubation_period`, one row per
time in `ts` and one column per compartment.  `blockIdx` selects which
quarter of the length-`4n` state rows is read (`np.split(·, 4)[blockIdx]`):
the hospitalization and deaths code reads block 1 (E) while the ICU code
reads block 2 (I). -/
def newCasesRate (sol : ℚ → List ℚ) (Y0 : List ℚ) (t0 : ℚ) (prob inc : List ℚ)
    (lag : ℚ) (blockIdx n : ℕ) (ts : List ℚ) : List (List ℚ) :=
  (SEIRsol sol Y0 t0 (ts.map (fun t => t - lag))).map (fun row =>
    (List.range n).map (fun i =>
      prob.getD i 0 * (row.getD (blockIdx * n + i) 0 / inc.getD i 0)))

/-- `htime_beg = np.arange(time.min() - duration, time[0] + dt/2, dt)`: the
backward padding of the query grid by `duration`. -/
def htimeBeg (time : List ℚ) (dur dt : ℚ) : List ℚ :=
  arange (listMin time - dur) (time.getD 0 0 + dt / 2) dt

/-- `htime_end = np.arange(time[-1], time.max() + duration + dt/2, dt)`: the
forward padding of the query grid by `duration`. -/
def htimeEnd (time : List ℚ) (dur dt : ℚ) : List ℚ :=
  arange (time.getLastD 0) (listMax time + dur + dt / 2) dt

/-- `htime = np.concatenate([htime_beg, time, htime_end])`. -/
def htimeOf (time : List ℚ) (dur dt : ℚ) : List ℚ :=
  htimeBeg time dur dt ++ time ++ htimeEnd time dur dt

/-- The boxcar window `np.ones(int(round(duration / dt)))`. -/
def boxcarWindow (dur dt : ℚ) : List ℚ :=
  List.replicate (round (dur / dt)).toNat (1 : ℚ)

/-- The padded active-count matrix before masking: the new-cases rate on
`htime`, convolved per compartment with the boxcar window (`mode='same'`) and
scaled by `dt` (`np.stack([np.convolve(rate[:, i], window, mode='same') * dt
for i ...], axis=-1)`). -/
def activeRaw (sol : ℚ → List ℚ) (Y0 : List ℚ) (t0 : ℚ) (n : ℕ)
    (inc prob : List ℚ) (dur lag : ℚ) (blockIdx : ℕ) (time : List ℚ) (dt : ℚ) :
    List (List ℚ) :=
  let rate := newCasesRate sol Y0 t0 prob inc lag blockIdx n (htimeOf time dur dt)
  let window := boxcarWindow dur dt
  (List.range (max rate.length window.length)).map (fun k =>
    (List.range n).map (fun i => (convSame (colOf rate i) window).getD k 0 * dt))

/-- The padded active-count matrix after the causal mask: with
`only_real_results` every row at `htime < t0 + lag + duration` is set to NaN
(`active_cases[htime < t0 + lag + duration] = np.nan`). -/
def activeMasked (sol : ℚ → List ℚ) (Y0 : List ℚ) (t0 : ℚ) (n : ℕ)
    (inc prob : List ℚ) (dur lag : ℚ) (blockIdx : ℕ) (time : List ℚ) (dt : ℚ)
    (only_real_results : Bool) : List (List (Option ℚ)) :=
  let htime := htimeOf time dur dt
  let raw := activeRaw sol Y0 t0 n inc prob dur lag blockIdx time dt
  (List.range raw.length).map (fun k =>
    if only_real_results ∧ htime.getD k 0 < t0 + lag + dur then
      (List.range n).map (fun _ => (none : Option ℚ))
    else (raw.getD k []).map some)

/-- The shared active-count construction of `evaluate_solution` for
hospitalization and ICU occupancy (the two code blocks are textually parallel
and differ only in their parameters and the state block they read):
`dt = time[1] - time[0]`; pad the grid by `duration` on both sides, build the
lagged new-cases rate, convolve with the boxcar window, scale by `dt`, mask
the causally unsupported rows, and finally keep rows
`[htime_beg.size, htime_beg.size + time.size)`. -/
def activeCasesSeries (sol : ℚ → List ℚ) (Y0 : List ℚ) (t0 : ℚ) (n : ℕ)
    (inc prob : List ℚ) (dur lag : ℚ) (blockIdx : ℕ) (time : List ℚ)
    (only_real_results : Bool) : List (List (Option ℚ)) :=
  let dt := time.getD 1 0 - time.getD 0 0
  ((activeMasked sol Y0 t0 n inc prob dur lag blockIdx time dt
      only_real_results).drop (htimeBeg time dur dt).length).take time.length

/-- The hospitalization block of `evaluate_solution`: reads the E block
(`Shl, Ehl, Ihl, Rhl = np.split(...)` and uses `Ehl`). -/
def hospitalizedActive (sol : ℚ → List ℚ) (Y0 : List ℚ) (t0 : ℚ) (n : ℕ)
    (inc hospProb : List ℚ) (hospDur hospLag : ℚ) (time : List ℚ)
    (only_real_results : Bool) : List (List (Option ℚ)) :=
  activeCasesSeries sol Y0 t0 n inc hospProb hospDur hospLag 1 time only_real_results

/-- The ICU block of `evaluate_solution`: identical construction with the ICU
parameters, but `E_icu_lag = np.split(SEIR_icu_lag, 4, axis=-1)[2]` reads
block 2 — the I (infectious) block — of the lagged state. -/
def icuActive (sol : ℚ → List ℚ) (Y0 : List ℚ) (t0 : ℚ) (n : ℕ)
    (inc icuProb : List ℚ) (icuDur icuLag : ℚ) (time : List ℚ)
    (only_real_results : Bool) : List (List (Option ℚ)) :=
  activeCasesSeries sol Y0 t0 n inc icuProb icuDur icuLag 2 time only_real_results

/-- The deaths block of `evaluate_solution`: `deaths` is
`cumtrapz(death_probability * E(t - death_lag)/incubation, x=time, initial=0)`
along the query grid; only when `only_real_results` is set, the row at the
query index nearest `t0 + death_lag_from_onset` (`np.fabs(time -
deaths_t0).argmin()`) is subtracted and every row at `time < t0 + death_lag`
is set to NaN. -/
def deathsSeries (sol : ℚ → List ℚ) (Y0 : List ℚ) (t0 : ℚ) (n : ℕ)
    (inc deathProb : List ℚ) (deathLag : ℚ) (time : List ℚ)
    (only_real_results : Bool) : List (List (Option ℚ)) :=
  let rate := newCasesRate sol Y0 t0 deathProb inc deathLag 1 n time
  let raw := (List.range time.length).map (fun k =>
    (List.range n).map (fun i => (cumtrapzL (colOf rate i) time).getD k 0))
  if only_real_results then
    let deaths_t0 := t0 + deathLag
    let idx := argminAbs time deaths_t0
    (List.range time.length).map (fun k =>
      if time.getD k 0 < deaths_t0 then (List.range n).map (fun _ => (none : Option ℚ))
      else (List.range n).map (fun i =>
        some ((raw.getD k []).getD i 0 - (raw.getD idx []).getD i 0)))
  else raw.map (fun row => row.map some)

/-- Modelled from the spec (claim C5's description of the deaths column, used
only to compare against the source's `deathsSeries`): the trapezoidal
cumulative integral of the lagged death rate along the query grid, anchored to
zero by subtracting its value at the query point nearest `t0` —
unconditionally, independent of the masking flag. -/
def deathsSeriesClaimed (sol : ℚ → List ℚ) (Y0 : List ℚ) (t0 : ℚ) (n : ℕ)
    (inc deathProb : List ℚ) (deathLag : ℚ) (time : List ℚ) : List (List ℚ) :=
  let rate := newCasesRate sol Y0 t0 deathProb inc deathLag 1 n time
  let raw := (List.range time.length).map (fun k =>
    (List.range n).map (fun i => (cumtrapzL (colOf rate i) time).getD k 0))
  let idx := argminAbs time t0
  (List.range time.length).map (fun k =>
    (List.range n).map (fun i => (raw.getD k []).getD i 0 - (raw.getD idx []).getD i 0))

/-! ### Shared list-indexing lemmas -/

theorem getD_map_range {α : Type} (n : ℕ) (f : ℕ → α) (i : ℕ) (d : α) :
    ((List.range n).map f).getD i d = if i < n then f i else d := by
  split
  · rw [List.getD_eq_getElem?_getD, List.getElem?_map,
      List.getElem?_range (by assumption)]
    rfl
  · rw [List.getD_eq_getElem?_getD, List.getElem?_map,
      List.getElem?_eq_none (by simpa using Nat.le_of_not_lt (by assumption))]
    rfl

theorem getD_append_left {α : Type} (xs ys : List α) (i : ℕ) (d : α)
    (h : i < xs.length) : (xs ++ ys).getD i d = xs.getD i d := by
  rw [List.getD_eq_getElem?_getD, List.getElem?_append, if_pos h,
    ← List.getD_eq_getElem?_getD]

theorem getD_append_right {α : Type} (xs ys : List α) (i : ℕ) (d : α)
    (h : xs.length ≤ i) : (xs ++ ys).getD i d = ys.getD (i - xs.length) d := by
  rw [List.getD_eq_getElem?_getD, List.getElem?_append, if_neg (by omega),
    ← List.getD_eq_getElem?_getD]

theorem getD_drop {α : Type} (xs : List α) (m k : ℕ) (d : α) :
    (xs.drop m).getD k d = xs.getD (m + k) d := by
  rw [List.getD_eq_getElem?_getD, List.getElem?_drop, ← List.getD_eq_getElem?_getD]

theorem getD_take {α : Type} (xs : List α) (q k : ℕ) (d : α) (h : k < q) :
    (xs.take q).getD k d = xs.getD k d := by
  rw [List.getD_eq_getElem?_getD, List.getElem?_take, if_pos h,
    ← List.getD_eq_getElem?_getD]

theorem getD_map_some {α : Type} (xs : List α) (i : ℕ) (d : α)
    (h : i < xs.length) : (xs.map some).getD i (some d) = some (xs.getD i d) := by
  rw [List.getD_eq_getElem?_getD, List.getElem?_map,
    List.getElem?_eq_getElem h, List.getD_eq_getElem?_getD, List.getElem?_eq_getElem h]
  rfl

theorem countP_lt_add_countP_ge (l : List ℚ) (t0 : ℚ) :
    l.countP (fun t => decide (t < t0)) + l.countP (fun t => decide (t0 ≤ t)) = l.length := by
  rw [List.length_eq_countP_add_countP (fun t => decide (t0 ≤ t)), Nat.add_comm]
  congr 1
  apply List.countP_congr
  intro a _
  simp [not_le]

/-! ### Claim theorems -/

/-- **C9.** `_fix_size` broadcasts a scalar to a length-`n` vector
(`np.ones(n) * x`), returns a length-`n` sequence unchanged, and fails (the
size assertion, the spec's `ShapeError`) on any sequence whose length differs
from `n`.  It is a pure function, so it has no side effects. -/
theorem fixSize_contract :
    (∀ (n : ℕ) (x : ℚ), fixSize n (.scalar x) = some (List.replicate n x)) ∧
    (∀ (n : ℕ) (xs : List ℚ), xs.length = n → fixSize n (.vec xs) = some xs) ∧
    (∀ (n : ℕ) (xs : List ℚ), xs.length ≠ n → fixSize n (.vec xs) = none) :=
  ⟨fun _ _ => rfl,
   fun _ xs h => by simp [fixSize, h],
   fun _ xs h => by simp [fixSize, h]⟩

/-- Witness for C9: a length-2 vector passes through `_fix_size` for a
two-compartment model and a length-1 vector is rejected. -/
theorem fixSize_contract_witness :
    fixSize 2 (.vec [5, 7]) = some [5, 7] ∧ fixSize 2 (.vec [5]) = none :=
  ⟨fixSize_contract.2.1 2 [5, 7] rfl, fixSize_contract.2.2 2 [5] (by decide)⟩

/-- **C2 counterexample.** With the per-compartment (vector) infectious period
`[1, 2]`, a symmetric all-ones contact matrix, `R0 = 1` and population
`[1, 1]`, the infectivity matrix is `[[1/2, 1/4], [1/2, 1/4]]`: entry `(0,1)`
is `1/4` while entry `(1,0)` is `1/2`, so the output is not symmetric — the
claim fails for vector infectious periods because NumPy broadcasts the
per-compartment normalization along rows (scaling by column index). -/
theorem infectivityMatrix_not_symmetric_cex :
    ((computeInfectivityMatrix 2 [1, 2] 1 [1, 1] [[1, 1], [1, 1]]).getD 0 []).getD 1 0 ≠
    ((computeInfectivityMatrix 2 [1, 2] 1 [1, 1] [[1, 1], [1, 1]]).getD 1 []).getD 0 0 := by
  decide

/-- **C2 (amended).** The infectivity matrix returned by
`_compute_infectivity_matrix` is symmetric for every input contact matrix
(including asymmetric ones) whenever the infectious period does not vary
between the two compartments involved — in particular for every scalar
(broadcast) infectious period. -/
theorem infectivityMatrix_symmetric (n : ℕ) (infectious_period : List ℚ)
    (initial_R0 : ℚ) (population : List ℚ) (contacts_matrix : List (List ℚ))
    (i j : ℕ) (h : infectious_period.getD i 0 = infectious_period.getD j 0) :
    ((computeInfectivityMatrix n infectious_period initial_R0 population
        contacts_matrix).getD i []).getD j 0 =
    ((computeInfectivityMatrix n infectious_period initial_R0 population
        contacts_matrix).getD j []).getD i 0 := by
  unfold computeInfectivityMatrix
  rcases Nat.lt_or_ge i n with hi | hi <;> rcases Nat.lt_or_ge j n with hj | hj
  · rw [getD_map_range, if_pos hi, getD_map_range, if_pos hj,
      getD_map_range, if_pos hj, getD_map_range, if_pos hi, h]
    ring
  · rw [getD_map_range, if_pos hi, getD_map_range n _ j, if_neg (by omega),
      getD_map_range, if_neg (by omega)]
    simp
  · rw [getD_map_range n _ i, if_neg (by omega), getD_map_range, if_pos hj,
      getD_map_range, if_neg (by omega)]
    simp
  · rw [getD_map_range n _ i, if_neg (by omega), getD_map_range n _ j, if_neg (by omega)]
    simp

/-- Witness for C2 (amended): with the scalar-broadcast infectious period
`[3, 3]` and an asymmetric contact matrix the `(0,1)` and `(1,0)` entries
agree. -/
theorem infectivityMatrix_symmetric_witness :
    ((computeInfectivityMatrix 2 [3, 3] 2 [1, 2] [[1, 2], [3, 4]]).getD 0 []).getD 1 0 =
    ((computeInfectivityMatrix 2 [3, 3] 2 [1, 2] [[1, 2], [3, 4]]).getD 1 []).getD 0 0 :=
  infectivityMatrix_symmetric 2 [3, 3] 2 [1, 2] [[1, 2], [3, 4]] 0 1 (by decide)

/-- **C6.** The dense-solution wrapper `SEIR_solution` returns, for every query
array, the repeated-`Y0` rows for the entries strictly before `t0` followed by
the dense-solution rows for the entries at or after `t0`, concatenated in time
order; in particular querying at any single time strictly less than `t0`
returns exactly `Y0` (flat extrapolation), for any `t0` and any
configuration. -/
theorem SEIRsol_flat_extrapolation :
    (∀ (sol : ℚ → List ℚ) (Y0 : List ℚ) (t0 : ℚ) (ts : List ℚ),
      SEIRsol sol Y0 t0 ts =
        List.replicate (ts.countP (fun t => decide (t < t0))) Y0 ++
          (ts.filter (fun t => decide (t0 ≤ t))).map sol) ∧
    (∀ (sol : ℚ → List ℚ) (Y0 : List ℚ) (t0 t : ℚ), t < t0 →
      SEIRsol sol Y0 t0 [t] = [Y0]) := by
  constructor
  · intro sol Y0 t0 ts
    unfold SEIRsol
    by_cases h1 : ts.countP (fun t => decide (t0 ≤ t)) = ts.length
    · rw [if_pos h1]
      have hfil : ts.filter (fun t => decide (t0 ≤ t)) = ts := by
        rw [List.filter_eq_self]
        intro a ha
        exact List.countP_eq_length.mp h1 a ha
      have hneg : ts.countP (fun t => decide (t < t0)) = 0 := by
        have := countP_lt_add_countP_ge ts t0
        omega
      rw [hfil, hneg]
      simp
    · rw [if_neg h1]
      by_cases h0 : ts.countP (fun t => decide (t0 ≤ t)) = 0
      · rw [if_pos h0]
        have hfil : ts.filter (fun t => decide (t0 ≤ t)) = [] := by
          rw [List.filter_eq_nil_iff]
          intro a ha
          simpa using List.countP_eq_zero.mp h0 a ha
        have hcnt : ts.countP (fun t => decide (t < t0)) = ts.length := by
          have := countP_lt_add_countP_ge ts t0
          omega
        rw [hfil, hcnt]
        simp
      · rw [if_neg h0]
        have hcnt : ts.length - ts.countP (fun t => decide (t0 ≤ t)) =
            ts.countP (fun t => decide (t < t0)) := by
          have := countP_lt_add_countP_ge ts t0
          omega
        rw [hcnt]
  · intro sol Y0 t0 t h
    have h2 : ¬ (t0 ≤ t) := not_le.mpr h
    simp [SEIRsol, h2]

/-- Witness for C6: querying at time `0` with `t0 = 1` returns exactly the
initial state, and a query array split across `t0` gives the `Y0` row followed
by the dense row. -/
theorem SEIRsol_flat_extrapolation_witness :
    SEIRsol (fun t => [t, t, t, t]) [9, 9, 9, 9] 1 [0] = [[9, 9, 9, 9]] ∧
    SEIRsol (fun t => [t, t, t, t]) [9, 9, 9, 9] 1 [0, 2] =
      [[9, 9, 9, 9], [2, 2, 2, 2]] := by
  constructor
  · exact SEIRsol_flat_extrapolation.2 (fun t => [t, t, t, t]) [9, 9, 9, 9] 1 0 (by decide)
  · rw [SEIRsol_flat_extrapolation.1 (fun t => [t, t, t, t]) [9, 9, 9, 9] 1 [0, 2]]
    decide

/-- The imported-cases function used in the C3 counterexample: a constant
exogenous import of one exposed person per unit time (`ΔS = 0`, `ΔE = 1`,
`ΔI = 0`), a legitimate use of the `imported_cases_function` hook. -/
def importedOneExposed : ℚ → List ℚ × List ℚ × List ℚ := fun _ => ([0], [1], [0])

/-- A concrete single-compartment model configuration with an imported-cases
function, used in the C3 counterexample. -/
def modelWithImports : ModelP :=
  { n := 1, population := [1], incubation_period := [1], infectious_period := [1],
    infectivity_matrix := [[1]], restrictions := none,
    imported := some importedOneExposed }

/-- **C3 counterexample.** With an imported-cases function supplied
(`ΔS = 0, ΔE = 1, ΔI = 0`), the four blocks of `dY/dt` sum to `1`, not `0`:
the right-hand side does not preserve the per-compartment population for
every configuration where an `imported_cases_function` is supplied, because
the imported corrections are added to `dS`, `dE`, `dI` with no compensating
term. -/
theorem seirCall_imported_breaks_conservation :
    (seirCall modelWithImports 0 [1, 0, 0, 0]).getD 0 0 +
      (seirCall modelWithImports 0 [1, 0, 0, 0]).getD 1 0 +
      (seirCall modelWithImports 0 [1, 0, 0, 0]).getD 2 0 +
      (seirCall modelWithImports 0 [1, 0, 0, 0]).getD 3 0 ≠ 0 := by
  decide

/-- **C3 (amended).** When no imported-cases function is supplied, the
right-hand side `SEIR.__call__` preserves the per-compartment population
exactly: for every time `t`, every state vector `Y`, and every compartment
`a < n`, the sum of the `dS`, `dE`, `dI`, `dR` entries is zero — for every
configuration, including any restrictions function. -/
theorem seirCall_conservation (p : ModelP) (himp : p.imported = none) (t : ℚ)
    (Y : List ℚ) (a : ℕ) (ha : a < p.n) :
    (seirCall p t Y).getD a 0 + (seirCall p t Y).getD (p.n + a) 0 +
      (seirCall p t Y).getD (2 * p.n + a) 0 + (seirCall p t Y).getD (3 * p.n + a) 0
      = 0 := by
  simp only [seirCall, himp]
  set n := p.n with hn
  set infM := match p.restrictions with
    | none => p.infectivity_matrix
    | some f => applyModifier (f t) p.infectivity_matrix with hM
  set Sa := Y.take n with hSa
  set Ea := (Y.drop n).take n with hEa
  set Ia := (Y.drop (2 * n)).take n with hIa
  set fS := fun a => -(Sa.getD a 0 / p.population.getD a 0) * dotVec (infM.getD a []) Ia
    with hfS
  set dS := (List.range n).map fS with hdS
  set fE := fun a => -(dS.getD a 0) - Ea.getD a 0 / p.incubation_period.getD a 0 with hfE
  set fI := fun a =>
    Ea.getD a 0 / p.incubation_period.getD a 0 - Ia.getD a 0 / p.infectious_period.getD a 0
    with hfI
  set fR := fun a => Ia.getD a 0 / p.infectious_period.getD a 0 with hfR
  have lS : dS.length = n := by rw [hdS]; simp
  have lE : ((List.range n).map fE).length = n := by simp
  have lI : ((List.range n).map fI).length = n := by simp
  have lSE : (dS ++ (List.range n).map fE).length = 2 * n := by
    rw [List.length_append, lS, lE]; omega
  have lSEI : ((dS ++ (List.range n).map fE) ++ (List.range n).map fI).length = 3 * n := by
    rw [List.length_append, lSE, lI]; omega
  have h1 : (((dS ++ (List.range n).map fE) ++ (List.range n).map fI) ++
      (List.range n).map fR).getD a 0 = fS a := by
    rw [getD_append_left _ _ _ _ (by omega), getD_append_left _ _ _ _ (by omega),
      getD_append_left _ _ _ _ (by omega), hdS, getD_map_range, if_pos ha]
  have h2 : (((dS ++ (List.range n).map fE) ++ (List.range n).map fI) ++
      (List.range n).map fR).getD (n + a) 0 = fE a := by
    rw [getD_append_left _ _ _ _ (by omega), getD_append_left _ _ _ _ (by omega),
      getD_append_right _ _ _ _ (by omega), lS, Nat.add_sub_cancel_left,
      getD_map_range, if_pos ha]
  have h3 : (((dS ++ (List.range n).map fE) ++ (List.range n).map fI) ++
      (List.range n).map fR).getD (2 * n + a) 0 = fI a := by
    rw [getD_append_left _ _ _ _ (by omega), getD_append_right _ _ _ _ (by omega), lSE]
    have hidx : 2 * n + a - 2 * n = a := by omega
    rw [hidx, getD_map_range, if_pos ha]
  have h4 : (((dS ++ (List.range n).map fE) ++ (List.range n).map fI) ++
      (List.range n).map fR).getD (3 * n + a) 0 = fR a := by
    rw [getD_append_right _ _ _ _ (by omega), lSEI]
    have hidx : 3 * n + a - 3 * n = a := by omega
    rw [hidx, getD_map_range, if_pos ha]
  rw [h1, h2, h3, h4, hfE, hfI, hfR]
  simp only [hdS]
  rw [getD_map_range, if_pos ha]
  ring

/-- A concrete single-compartment configuration without imported cases, used
by the C3 witness. -/
def modelNoImports : ModelP :=
  { n := 1, population := [5], incubation_period := [2], infectious_period := [3],
    infectivity_matrix := [[7]], restrictions := none, imported := none }

/-- Witness for C3 (amended): the concrete configuration without imports
conserves the population flow at compartment `0`. -/
theorem seirCall_conservation_witness :
    (seirCall modelNoImports 0 [4, 2, 1, 0]).getD 0 0 +
      (seirCall modelNoImports 0 [4, 2, 1, 0]).getD 1 0 +
      (seirCall modelNoImports 0 [4, 2, 1, 0]).getD 2 0 +
      (seirCall modelNoImports 0 [4, 2, 1, 0]).getD 3 0 = 0 :=
  seirCall_conservation modelNoImports rfl 0 [4, 2, 1, 0] 0 (by decide)

theorem getD_replicate' {α : Type} (n : ℕ) (x : α) (i : ℕ) (d : α) (h : i < n) :
    (List.replicate n x).getD i d = x := by
  rw [List.getD_eq_getElem?_getD, List.getElem?_replicate, if_pos h]
  rfl

theorem getD_zipWith' {α : Type} (f : α → α → α) (as bs : List α) (i : ℕ) (d : α)
    (h : i < (List.zipWith f as bs).length) :
    (List.zipWith f as bs).getD i d = f (as.getD i d) (bs.getD i d) := by
  rw [List.getD_eq_getElem _ _ h, List.getElem_zipWith]
  rw [List.length_zipWith] at h
  rw [List.getD_eq_getElem as d (by omega), List.getD_eq_getElem bs d (by omega)]

/-- **C8 counterexample.** Constructing a model with a negative incubation
period (`-1`), a zero infectious period, probabilities `2`, `-3` and `5`
(all outside `[0, 1]`), and negative durations succeeds: `SEIR.__init__`
contains no value-range validation at all (and no `ConfigurationError` class
exists anywhere in the repository), so the claim that such inputs are rejected
is false. -/
theorem seirInit_accepts_invalid_values :
    (seirInit none (.scalar (-1)) (.scalar 0) 1 (.scalar 2) 0 0 (.scalar (-3)) (-1) 0
      (.scalar 5) 0 (.scalar 1) none).isSome = true := by
  decide

/-- **C8 (amended).** The constructor validates only shapes, not values: every
all-scalar configuration is accepted whatever the signs or ranges of its
periods, durations and probabilities, while a parameter vector whose length
differs from the number of compartments is rejected (by the `_fix_size`
assertion, not a `ConfigurationError`). -/
theorem seirInit_shape_validation_only :
    (∀ ip infp r0 hp hd hl icp icd icl dp dl popv : ℚ,
      (seirInit none (.scalar ip) (.scalar infp) r0 (.scalar hp) hd hl (.scalar icp)
        icd icl (.scalar dp) dl (.scalar popv) none).isSome = true) ∧
    (∀ xs : List ℚ, xs.length ≠ 1 →
      seirInit none (.vec xs) (.scalar 1) 1 (.scalar 1) 1 1 (.scalar 1) 1 1 (.scalar 1) 1
        (.scalar 1) none = none) := by
  constructor
  · intro ip infp r0 hp hd hl icp icd icl dp dl popv
    rfl
  · intro xs h
    simp [seirInit, fixSize, h]

/-- Witness for C8 (amended): a two-entry incubation-period vector is rejected
for the default single-compartment model, and an arbitrary invalid scalar
configuration is accepted. -/
theorem seirInit_shape_validation_only_witness :
    seirInit none (.vec [1, 2]) (.scalar 1) 1 (.scalar 1) 1 1 (.scalar 1) 1 1 (.scalar 1) 1
      (.scalar 1) none = none ∧
    (seirInit none (.scalar (-7)) (.scalar (-7)) 1 (.scalar 9) (-2) 0 (.scalar 9) (-2) 0
      (.scalar 9) 0 (.scalar 1) none).isSome = true :=
  ⟨seirInit_shape_validation_only.2 [1, 2] (by decide),
   seirInit_shape_validation_only.1 (-7) (-7) 1 9 (-2) 0 9 (-2) 0 9 0 1⟩

/-- **C10.** With `probabilities=False` and scalar exposed/infected arguments,
`set_initial_state` splits each scalar equally across the `n` compartments
(each gets `x / n`, so the total equals `x` — not the per-compartment
broadcast used for other scalar parameters), and the resulting `Y0` satisfies
`S0 + E0 + I0 + R0 = population` exactly per compartment, with the removed
block identically zero. -/
theorem setInitialState_scalar_splits (n : ℕ) (population : List ℚ) (x y : ℚ)
    (hlen : population.length = n) (hn : 1 ≤ n) :
    ∃ Y0 : List ℚ,
      setInitialState n population (.scalar x) (.scalar y) false = some Y0 ∧
      (Y0.drop n).take n = List.replicate n (x / n) ∧
      ((Y0.drop n).take n).sum = x ∧
      ((Y0.drop (2 * n)).take n).sum = y ∧
      (∀ a, a < n →
        Y0.getD a 0 + Y0.getD (n + a) 0 + Y0.getD (2 * n + a) 0 + Y0.getD (3 * n + a) 0 =
          population.getD a 0) ∧
      Y0.drop (3 * n) = List.replicate n 0 := by
  have hq : (n : ℚ) ≠ 0 := Nat.cast_ne_zero.mpr (by omega)
  set E := List.replicate n (x / (n : ℚ)) with hE
  set I := List.replicate n (y / (n : ℚ)) with hI
  set S := List.zipWith (· - ·) (List.zipWith (· - ·) population E) I with hS
  set R := List.replicate n (0 : ℚ) with hR
  have hEl : E.length = n := by rw [hE, List.length_replicate]
  have hIl : I.length = n := by rw [hI, List.length_replicate]
  have hSl : S.length = n := by
    rw [hS, List.length_zipWith, List.length_zipWith, hlen, hEl, hIl]
    omega
  have hset : setInitialState n population (.scalar x) (.scalar y) false =
      some (((S ++ E) ++ I) ++ R) := by
    show some _ = _
    simp only [hS, hE, hI, hR, List.map_replicate]
  refine ⟨((S ++ E) ++ I) ++ R, hset, ?_, ?_, ?_, ?_, ?_⟩
  · rw [List.append_assoc, List.append_assoc, List.drop_left' hSl, List.take_left' hEl]
  · rw [List.append_assoc, List.append_assoc, List.drop_left' hSl, List.take_left' hEl,
      hE, List.sum_replicate, nsmul_eq_mul, mul_comm, div_mul_cancel₀ x hq]
  · have h2 : (S ++ E).length = 2 * n := by rw [List.length_append, hSl, hEl]; omega
    rw [List.append_assoc, List.drop_left' h2, List.take_left' hIl, hI,
      List.sum_replicate, nsmul_eq_mul, mul_comm, div_mul_cancel₀ y hq]
  · intro a ha
    have h2 : (S ++ E).length = 2 * n := by rw [List.length_append, hSl, hEl]; omega
    have h3 : ((S ++ E) ++ I).length = 3 * n := by
      rw [List.length_append, h2, hIl]; omega
    have e1 : ((((S ++ E) ++ I) ++ R)).getD a 0 = S.getD a 0 := by
      rw [getD_append_left _ _ _ _ (by omega), getD_append_left _ _ _ _ (by omega),
        getD_append_left _ _ _ _ (by omega)]
    have e2 : ((((S ++ E) ++ I) ++ R)).getD (n + a) 0 = x / n := by
      rw [getD_append_left _ _ _ _ (by omega), getD_append_left _ _ _ _ (by omega),
        getD_append_right _ _ _ _ (by omega), hSl, Nat.add_sub_cancel_left, hE,
        getD_replicate' _ _ _ _ ha]
    have e3 : ((((S ++ E) ++ I) ++ R)).getD (2 * n + a) 0 = y / n := by
      rw [getD_append_left _ _ _ _ (by omega), getD_append_right _ _ _ _ (by omega), h2]
      have hidx : 2 * n + a - 2 * n = a := by omega
      rw [hidx, hI, getD_replicate' _ _ _ _ ha]
    have e4 : ((((S ++ E) ++ I) ++ R)).getD (3 * n + a) 0 = 0 := by
      rw [getD_append_right _ _ _ _ (by omega), h3]
      have hidx : 3 * n + a - 3 * n = a := by omega
      rw [hidx, hR, getD_replicate' _ _ _ _ ha]
    have e5 : S.getD a 0 = population.getD a 0 - x / n - y / n := by
      rw [hS, getD_zipWith' _ _ _ _ _ (by rw [← hS, hSl]; omega),
        getD_zipWith' _ _ _ _ _ (by rw [List.length_zipWith, hlen, hEl]; omega),
        hE, hI, getD_replicate' _ _ _ _ ha, getD_replicate' _ _ _ _ ha]
    rw [e1, e2, e3, e4, e5]
    ring
  · have h3 : ((S ++ E) ++ I).length = 3 * n := by
      rw [List.length_append, List.length_append, hSl, hEl, hIl]; omega
    rw [List.drop_left' h3, hR]

/-- Witness for C10: a two-compartment model with population `[10, 20]` and
scalar initial exposed `4` and infected `6`. -/
theorem setInitialState_scalar_splits_witness :
    ∃ Y0 : List ℚ,
      setInitialState 2 [10, 20] (.scalar 4) (.scalar 6) false = some Y0 ∧
      (Y0.drop 2).take 2 = List.replicate 2 ((4 : ℚ) / 2) ∧
      ((Y0.drop 2).take 2).sum = 4 ∧
      ((Y0.drop (2 * 2)).take 2).sum = 6 ∧
      (∀ a, a < 2 →
        Y0.getD a 0 + Y0.getD (2 + a) 0 + Y0.getD (2 * 2 + a) 0 + Y0.getD (3 * 2 + a) 0 =
          ([10, 20] : List ℚ).getD a 0) ∧
      Y0.drop (3 * 2) = List.replicate 2 0 :=
  setInitialState_scalar_splits 2 [10, 20] 4 6 rfl (by omega)

/-- Independent right-fold product of a list of modifiers, used to state what
"the elementwise product of all `f_k(t)`" means (not defined via the code's
left fold). -/
def modProd : List Modifier → Modifier
  | [] => .scalar 1
  | m :: ms => mulModifier m (modProd ms)

theorem mulModifier_one_left (m : Modifier) : mulModifier (.scalar 1) m = m := by
  cases m <;> simp [mulModifier]

theorem mulModifier_one_right (m : Modifier) : mulModifier m (.scalar 1) = m := by
  cases m <;> simp [mulModifier]

theorem zipWith_mul_assoc (A B C : List ℚ) :
    List.zipWith (· * ·) (List.zipWith (· * ·) A B) C =
    List.zipWith (· * ·) A (List.zipWith (· * ·) B C) := by
  induction A generalizing B C with
  | nil => simp
  | cons a A ih =>
    cases B with
    | nil => simp
    | cons b B =>
      cases C with
      | nil => simp
      | cons c C => simp [ih, mul_assoc]

theorem zipWith2_mul_assoc (A B C : List (List ℚ)) :
    List.zipWith (List.zipWith (· * ·)) (List.zipWith (List.zipWith (· * ·)) A B) C =
    List.zipWith (List.zipWith (· * ·)) A (List.zipWith (List.zipWith (· * ·)) B C) := by
  induction A generalizing B C with
  | nil => simp
  | cons a A ih =>
    cases B with
    | nil => simp
    | cons b B =>
      cases C with
      | nil => simp
      | cons c C => simp [ih, zipWith_mul_assoc]

theorem mulModifier_assoc (a b c : Modifier) :
    mulModifier (mulModifier a b) c = mulModifier a (mulModifier b c) := by
  cases a with
  | scalar x =>
    cases b with
    | scalar y =>
      cases c with
      | scalar z => simp [mulModifier, mul_assoc]
      | matrix C => simp [mulModifier, List.map_map, Function.comp, mul_assoc]
    | matrix B =>
      cases c with
      | scalar z => simp [mulModifier, List.map_map, Function.comp, mul_assoc]
      | matrix C =>
        simp only [mulModifier, Modifier.matrix.injEq]
        rw [List.zipWith_map_left, List.map_zipWith]
        congr 1
        funext r1 r2
        rw [List.zipWith_map_left, List.map_zipWith]
        congr 1
        funext u v
        ring
  | matrix A =>
    cases b with
    | scalar y =>
      cases c with
      | scalar z => simp [mulModifier, List.map_map, Function.comp, mul_assoc]
      | matrix C =>
        simp only [mulModifier, Modifier.matrix.injEq]
        rw [List.zipWith_map_left, List.zipWith_map_right]
        congr 1
        funext r1 r2
        rw [List.zipWith_map_left, List.zipWith_map_right]
        congr 1
        funext u v
        ring
    | matrix B =>
      cases c with
      | scalar z =>
        simp only [mulModifier, Modifier.matrix.injEq]
        rw [List.map_zipWith, List.zipWith_map_right]
        congr 1
        funext r1 r2
        rw [List.map_zipWith, List.zipWith_map_right]
        congr 1
        funext u v
        ring
      | matrix C => simp [mulModifier, zipWith2_mul_assoc]

theorem foldl_apply_mulModifier (restr_funs : List (ℚ → Modifier)) (t : ℚ)
    (acc : Modifier) :
    restr_funs.foldl (fun modif fn => mulModifier modif (fn t)) acc =
      mulModifier acc (modProd (restr_funs.map (fun f => f t))) := by
  induction restr_funs generalizing acc with
  | nil => simp [modProd, mulModifier_one_right]
  | cons f fs ih => simp [modProd, List.foldl_cons, ih, mulModifier_assoc]

/-- **C7.** The restriction composer: with zero restriction functions the
combined modifier (as consumed by the model, where `None` means "leave the
infectivity matrix untouched") is the constant `1.0`; with one it is that
function itself; with many, the combined function at every `t` is the
(elementwise / scalar-broadcast) product of all `f_k(t)`; consequently two
window restriction functions give exactly `1.0` at every time outside both
windows. -/
theorem restriction_composer_contract :
    (∀ t : ℚ, effectiveModifier (composeRestrictions []) t = .scalar 1) ∧
    (∀ f : ℚ → Modifier, composeRestrictions [f] = some f) ∧
    (∀ (restr_funs : List (ℚ → Modifier)) (t : ℚ),
      effectiveModifier (composeRestrictions restr_funs) t =
        modProd (restr_funs.map (fun f => f t))) ∧
    (∀ (b1 e1 b2 e2 t : ℚ) (m1 m2 : Modifier),
      ¬(b1 ≤ t ∧ t ≤ e1) → ¬(b2 ≤ t ∧ t ≤ e2) →
      effectiveModifier (composeRestrictions
        [restrictionWindowFunction b1 e1 m1, restrictionWindowFunction b2 e2 m2]) t =
        .scalar 1) := by
  have hprod : ∀ (restr_funs : List (ℚ → Modifier)) (t : ℚ),
      effectiveModifier (composeRestrictions restr_funs) t =
        modProd (restr_funs.map (fun f => f t)) := by
    intro fs t
    match fs with
    | [] => rfl
    | [f] =>
      show f t = modProd [f t]
      rw [modProd, modProd, mulModifier_one_right]
    | f :: g :: rest =>
      show List.foldl (fun modif fn => mulModifier modif (fn t)) (.scalar 1) (f :: g :: rest) =
        _
      rw [foldl_apply_mulModifier, mulModifier_one_left]
  refine ⟨fun t => rfl, fun f => rfl, hprod, ?_⟩
  intro b1 e1 b2 e2 t m1 m2 h1 h2
  rw [hprod]
  simp only [List.map_cons, List.map_nil, restrictionWindowFunction, if_neg h1, if_neg h2]
  rw [modProd, modProd, modProd, mulModifier_one_right, mulModifier_one_right]

/-- Witness for C7: two windows `[0, 10]` and `[20, 30]` with arbitrary
modifiers; at `t = 15` (outside both) the combined modifier is exactly `1.0`. -/
theorem restriction_composer_contract_witness :
    effectiveModifier (composeRestrictions
      [restrictionWindowFunction 0 10 (.scalar (1 / 2)),
       restrictionWindowFunction 20 30 (.matrix [[1 / 3]])]) 15 = .scalar 1 :=
  restriction_composer_contract.2.2.2 0 10 20 30 15 (.scalar (1 / 2)) (.matrix [[1 / 3]])
    (by norm_num) (by norm_num)

theorem getD_map' {α β : Type} (f : α → β) (xs : List α) (k : ℕ) (da : α) (db : β)
    (h : k < xs.length) : (xs.map f).getD k db = f (xs.getD k da) := by
  rw [List.getD_eq_getElem _ _ (by simpa using h), List.getElem_map,
    List.getD_eq_getElem _ _ h]

theorem getD_oob {α : Type} (xs : List α) (k : ℕ) (d : α) (h : xs.length ≤ k) :
    xs.getD k d = d := by
  rw [List.getD_eq_getElem?_getD, List.getElem?_eq_none h]
  rfl

theorem SEIRsol_length (sol : ℚ → List ℚ) (Y0 : List ℚ) (t0 : ℚ) (ts : List ℚ) :
    (SEIRsol sol Y0 t0 ts).length = ts.length := by
  unfold SEIRsol
  dsimp only
  split
  · simp
  · split
    · simp
    · rw [List.length_append, List.length_replicate, List.length_map,
        ← List.countP_eq_length_filter]
      have := List.countP_le_length (fun t => decide (t0 ≤ t)) (l := ts)
      omega

theorem newCasesRate_length (sol : ℚ → List ℚ) (Y0 : List ℚ) (t0 : ℚ)
    (prob inc : List ℚ) (lag : ℚ) (blockIdx n : ℕ) (ts : List ℚ) :
    (newCasesRate sol Y0 t0 prob inc lag blockIdx n ts).length = ts.length := by
  unfold newCasesRate
  rw [List.length_map, SEIRsol_length, List.length_map]

theorem htimeOf_length (time : List ℚ) (dur dt : ℚ) :
    (htimeOf time dur dt).length =
      (htimeBeg time dur dt).length + time.length + (htimeEnd time dur dt).length := by
  unfold htimeOf
  rw [List.length_append, List.length_append]

theorem htimeOf_getD (time : List ℚ) (dur dt : ℚ) (k : ℕ) (hk : k < time.length) :
    (htimeOf time dur dt).getD ((htimeBeg time dur dt).length + k) 0 =
      time.getD k 0 := by
  unfold htimeOf
  rw [getD_append_left _ _ _ _ (by rw [List.length_append]; omega),
    getD_append_right _ _ _ _ (by omega), Nat.add_sub_cancel_left]

theorem activeRaw_length (sol : ℚ → List ℚ) (Y0 : List ℚ) (t0 : ℚ) (n : ℕ)
    (inc prob : List ℚ) (dur lag : ℚ) (blockIdx : ℕ) (time : List ℚ) (dt : ℚ) :
    (activeRaw sol Y0 t0 n inc prob dur lag blockIdx time dt).length =
      max (htimeOf time dur dt).length (boxcarWindow dur dt).length := by
  unfold activeRaw
  rw [List.length_map, List.length_range, newCasesRate_length]

theorem activeMasked_length (sol : ℚ → List ℚ) (Y0 : List ℚ) (t0 : ℚ) (n : ℕ)
    (inc prob : List ℚ) (dur lag : ℚ) (blockIdx : ℕ) (time : List ℚ) (dt : ℚ)
    (only_real_results : Bool) :
    (activeMasked sol Y0 t0 n inc prob dur lag blockIdx time dt
        only_real_results).length =
      (activeRaw sol Y0 t0 n inc prob dur lag blockIdx time dt).length := by
  unfold activeMasked
  rw [List.length_map, List.length_range]

/-- The masking structure of the padded hospitalization/ICU construction: the
entry for query index `k` and compartment `i` is NaN (`none`) exactly when
masking is on and the query time is before `t0 + lag + duration`; otherwise it
is a real (`some`) value. -/
theorem activeCasesSeries_entry_none_iff (sol : ℚ → List ℚ) (Y0 : List ℚ)
    (t0 : ℚ) (n : ℕ) (inc prob : List ℚ) (dur lag : ℚ) (blockIdx : ℕ)
    (time : List ℚ) (only_real_results : Bool) (k i : ℕ)
    (hk : k < time.length) (hi : i < n) :
    ((activeCasesSeries sol Y0 t0 n inc prob dur lag blockIdx time
        only_real_results).getD k []).getD i (some 0) = none ↔
      (only_real_results = true ∧ time.getD k 0 < t0 + lag + dur) := by
  unfold activeCasesSeries
  set dt := time.getD 1 0 - time.getD 0 0 with hdt
  have hrawlen : (htimeBeg time dur dt).length + k <
      (activeRaw sol Y0 t0 n inc prob dur lag blockIdx time dt).length := by
    rw [activeRaw_length]
    have h1 := htimeOf_length time dur dt
    have h2 := Nat.le_max_left (htimeOf time dur dt).length (boxcarWindow dur dt).length
    omega
  have hmaskedlen : (htimeBeg time dur dt).length + k <
      (activeMasked sol Y0 t0 n inc prob dur lag blockIdx time dt
        only_real_results).length := by
    rw [activeMasked_length]
    exact hrawlen
  rw [getD_take _ _ _ _ hk, getD_drop]
  have hmask : (activeMasked sol Y0 t0 n inc prob dur lag blockIdx time dt
      only_real_results).getD ((htimeBeg time dur dt).length + k) [] =
      if only_real_results ∧
          (htimeOf time dur dt).getD ((htimeBeg time dur dt).length + k) 0 <
            t0 + lag + dur then
        (List.range n).map (fun _ => (none : Option ℚ))
      else ((activeRaw sol Y0 t0 n inc prob dur lag blockIdx time dt).getD
        ((htimeBeg time dur dt).length + k) []).map some := by
    unfold activeMasked
    rw [getD_map_range, if_pos hrawlen]
  rw [hmask, htimeOf_getD _ _ _ _ hk]
  split
  · rename_i hcond
    rw [getD_map_range, if_pos hi]
    exact iff_of_true rfl hcond
  · rename_i hcond
    have hlt : (htimeBeg time dur dt).length + k <
        max (newCasesRate sol Y0 t0 prob inc lag blockIdx n
          (htimeOf time dur dt)).length (boxcarWindow dur dt).length := by
      rw [newCasesRate_length]
      rw [activeRaw_length] at hrawlen
      exact hrawlen
    have hraw : (activeRaw sol Y0 t0 n inc prob dur lag blockIdx time dt).getD
        ((htimeBeg time dur dt).length + k) [] =
        (List.range n).map (fun i =>
          (convSame (colOf (newCasesRate sol Y0 t0 prob inc lag blockIdx n
            (htimeOf time dur dt)) i) (boxcarWindow dur dt)).getD
            ((htimeBeg time dur dt).length + k) 0 * dt) := by
      unfold activeRaw
      rw [getD_map_range, if_pos hlt]
    rw [hraw, getD_map_some _ _ _ (by simpa using hi)]
    exact iff_of_false (by simp) hcond

theorem cumtrapzL_length (f x : List ℚ) : (cumtrapzL f x).length = x.length := by
  unfold cumtrapzL
  rw [List.length_map, List.length_range]

theorem deathsRaw_getD (sol : ℚ → List ℚ) (Y0 : List ℚ) (t0 : ℚ) (n : ℕ)
    (inc deathProb : List ℚ) (deathLag : ℚ) (time : List ℚ) (j i : ℕ) (hi : i < n) :
    (((List.range time.length).map (fun k => (List.range n).map (fun i =>
        (cumtrapzL (colOf (newCasesRate sol Y0 t0 deathProb inc deathLag 1 n time) i)
          time).getD k 0))).getD j []).getD i 0 =
      (cumtrapzL (colOf (newCasesRate sol Y0 t0 deathProb inc deathLag 1 n time) i)
        time).getD j 0 := by
  rcases Nat.lt_or_ge j time.length with hj | hj
  · rw [getD_map_range, if_pos hj, getD_map_range, if_pos hi]
  · rw [getD_map_range, if_neg (by omega),
      getD_oob (cumtrapzL (colOf (newCasesRate sol Y0 t0 deathProb inc deathLag 1 n time) i)
        time) j 0 (by rw [cumtrapzL_length]; omega)]
    rfl

/-- The entrywise value of the deaths block: with the flag off the raw
cumulative trapezoid, with the flag on masked before `t0 + death_lag` and
anchored at the query index nearest `t0 + death_lag`. -/
theorem deathsSeries_getD (sol : ℚ → List ℚ) (Y0 : List ℚ) (t0 : ℚ) (n : ℕ)
    (inc deathProb : List ℚ) (deathLag : ℚ) (time : List ℚ)
    (only_real_results : Bool) (k i : ℕ) (hk : k < time.length) (hi : i < n) :
    ((deathsSeries sol Y0 t0 n inc deathProb deathLag time
        only_real_results).getD k []).getD i (some 0) =
      (if only_real_results = true then
        (if time.getD k 0 < t0 + deathLag then none
         else some
          ((cumtrapzL (colOf (newCasesRate sol Y0 t0 deathProb inc deathLag 1 n time) i)
             time).getD k 0 -
           (cumtrapzL (colOf (newCasesRate sol Y0 t0 deathProb inc deathLag 1 n time) i)
             time).getD (argminAbs time (t0 + deathLag)) 0))
       else some
        ((cumtrapzL (colOf (newCasesRate sol Y0 t0 deathProb inc deathLag 1 n time) i)
           time).getD k 0)) := by
  cases only_real_results with
  | false =>
    unfold deathsSeries
    dsimp only
    rw [if_neg (by simp)]
    rw [getD_map' (fun row => row.map some) _ k [] []
      (by rw [List.length_map, List.length_range]; exact hk)]
    rw [getD_map_range, if_pos hk]
    rw [getD_map_some _ _ _ (by simpa using hi), getD_map_range, if_pos hi]
    simp
  | true =>
    unfold deathsSeries
    dsimp only
    rw [if_pos rfl, getD_map_range, if_pos hk]
    split
    · rename_i hcond
      rw [getD_map_range, if_pos hi]
      simp [hcond]
    · rename_i hcond
      rw [getD_map_range, if_pos hi,
        deathsRaw_getD sol Y0 t0 n inc deathProb deathLag time k i hi,
        deathsRaw_getD sol Y0 t0 n inc deathProb deathLag time
          (argminAbs time (t0 + deathLag)) i hi]
      simp [hcond]

/-- **C4.** With masking enabled (`only_real_results=True`), every
hospitalization, ICU and death cell at a query time strictly before
`t0 + lag + duration` (for deaths the quantity has no duration parameter, so
its boundary is `t0 + death_lag_from_onset`) is NaN, and every cell at or
after that boundary is a real (non-NaN) value; the masked region never holds
zeros or extrapolated numbers. -/
theorem evaluate_solution_causal_masking (sol : ℚ → List ℚ) (Y0 : List ℚ)
    (t0 : ℚ) (n : ℕ) (inc hospProb icuProb deathProb : List ℚ)
    (hospDur hospLag icuDur icuLag deathLag : ℚ) (time : List ℚ) (k i : ℕ)
    (hk : k < time.length) (hi : i < n) :
    (((hospitalizedActive sol Y0 t0 n inc hospProb hospDur hospLag time
        true).getD k []).getD i (some 0) = none ↔
      time.getD k 0 < t0 + hospLag + hospDur) ∧
    (((icuActive sol Y0 t0 n inc icuProb icuDur icuLag time
        true).getD k []).getD i (some 0) = none ↔
      time.getD k 0 < t0 + icuLag + icuDur) ∧
    (((deathsSeries sol Y0 t0 n inc deathProb deathLag time
        true).getD k []).getD i (some 0) = none ↔
      time.getD k 0 < t0 + deathLag) := by
  refine ⟨?_, ?_, ?_⟩
  · unfold hospitalizedActive
    rw [activeCasesSeries_entry_none_iff sol Y0 t0 n inc hospProb hospDur hospLag 1 time
      true k i hk hi]
    simp
  · unfold icuActive
    rw [activeCasesSeries_entry_none_iff sol Y0 t0 n inc icuProb icuDur icuLag 2 time
      true k i hk hi]
    simp
  · rw [deathsSeries_getD sol Y0 t0 n inc deathProb deathLag time true k i hk hi]
    split
    · simp_all
    · simp_all

/-- Witness for C4: single compartment, `t0 = 0`, hospitalization and ICU with
`lag = 1`, `duration = 2` (boundary `3`), deaths with `lag = 1` (boundary
`1`), query grid `0..5`: the hospitalization cell at `t = 2` is masked, the
ICU cell at `t = 3` is real, and the deaths cell at `t = 0` is masked. -/
theorem evaluate_solution_causal_masking_witness :
    ((hospitalizedActive (fun _ => [0, 3, 5, 0]) [0, 3, 5, 0] 0 1 [1] [1] 2 1
        [0, 1, 2, 3, 4, 5] true).getD 2 []).getD 0 (some 0) = none ∧
    ¬ ((icuActive (fun _ => [0, 3, 5, 0]) [0, 3, 5, 0] 0 1 [1] [1] 2 1
        [0, 1, 2, 3, 4, 5] true).getD 3 []).getD 0 (some 0) = none ∧
    ((deathsSeries (fun _ => [0, 3, 5, 0]) [0, 3, 5, 0] 0 1 [1] [1] 1
        [0, 1, 2, 3, 4, 5] true).getD 0 []).getD 0 (some 0) = none := by
  refine ⟨?_, ?_, ?_⟩
  · exact (evaluate_solution_causal_masking (fun _ => [0, 3, 5, 0]) [0, 3, 5, 0] 0 1
      [1] [1] [1] [1] 2 1 2 1 1 [0, 1, 2, 3, 4, 5] 2 0 (by decide) (by decide)).1.mpr
      (by decide)
  · intro h
    exact absurd ((evaluate_solution_causal_masking (fun _ => [0, 3, 5, 0]) [0, 3, 5, 0]
      0 1 [1] [1] [1] [1] 2 1 2 1 1 [0, 1, 2, 3, 4, 5] 3 0 (by decide)
      (by decide)).2.1.mp h) (by decide)
  · exact (evaluate_solution_causal_masking (fun _ => [0, 3, 5, 0]) [0, 3, 5, 0] 0 1
      [1] [1] [1] [1] 2 1 2 1 1 [0, 1, 2, 3, 4, 5] 0 0 (by decide) (by decide)).2.2.mpr
      (by decide)

/-- **C5 counterexample.** Two concrete runs refute the claimed deaths
construction.  (1) Masking disabled, `t0 = 2`, `death_lag = 0`, query grid
`[1, 2, 3]`, constant dense solution with `E = 3`: the code returns the raw
cumulative trapezoid `[0, 3, 6]` with no anchoring, while the claim
prescribes the anchored `[-3, 0, 3]` — the anchoring is *not* performed
regardless of the masking flag.  (2) Masking enabled, `t0 = 0`,
`death_lag = 2`: the code anchors at the query point nearest
`t0 + death_lag = 2` (index 1) and masks `t < 2`, returning
`[NaN, 0, 3]`, while the claim's anchor (nearest `t0 = 0`, index 0) would
give `[0, 3, 6]`. -/
theorem deaths_anchoring_cex :
    deathsSeries (fun _ => [0, 3, 5, 0]) [0, 3, 5, 0] 2 1 [1] [1] 0 [1, 2, 3] false
      = [[some 0], [some 3], [some 6]] ∧
    deathsSeriesClaimed (fun _ => [0, 3, 5, 0]) [0, 3, 5, 0] 2 1 [1] [1] 0 [1, 2, 3]
      = [[-3], [0], [3]] ∧
    deathsSeries (fun _ => [0, 3, 5, 0]) [0, 3, 5, 0] 2 1 [1] [1] 0 [1, 2, 3] false ≠
      (deathsSeriesClaimed (fun _ => [0, 3, 5, 0]) [0, 3, 5, 0] 2 1 [1] [1] 0
        [1, 2, 3]).map (fun row => row.map some) ∧
    deathsSeries (fun _ => [0, 3, 5, 0]) [0, 3, 5, 0] 0 1 [1] [1] 2 [1, 2, 3] true
      = [[none], [some 0], [some 3]] ∧
    deathsSeriesClaimed (fun _ => [0, 3, 5, 0]) [0, 3, 5, 0] 0 1 [1] [1] 2 [1, 2, 3]
      = [[0], [3], [6]] := by
  decide

/-- **C5 (amended).** The deaths column is the cumulative trapezoidal integral
of `deathProbability ⊙ E(t − deathLag)/incubationPeriod` along the query grid
(zero at the *first query time*, not at `t0`); only when the masking flag is
enabled is it anchored — by subtracting its value at the query point nearest
`t0 + death_lag_from_onset` (not `t0`) — which makes the cell at that anchor
point exactly zero whenever it is unmasked. -/
theorem deathsSeries_characterization (sol : ℚ → List ℚ) (Y0 : List ℚ)
    (t0 : ℚ) (n : ℕ) (inc deathProb : List ℚ) (deathLag : ℚ) (time : List ℚ)
    (k i : ℕ) (hk : k < time.length) (hi : i < n) :
    (((deathsSeries sol Y0 t0 n inc deathProb deathLag time false).getD k []).getD i
        (some 0) =
      some ((cumtrapzL (colOf (newCasesRate sol Y0 t0 deathProb inc deathLag 1 n time) i)
        time).getD k 0)) ∧
    (¬ time.getD k 0 < t0 + deathLag →
      ((deathsSeries sol Y0 t0 n inc deathProb deathLag time true).getD k []).getD i
          (some 0) =
        some ((cumtrapzL (colOf (newCasesRate sol Y0 t0 deathProb inc deathLag 1 n time) i)
            time).getD k 0 -
          (cumtrapzL (colOf (newCasesRate sol Y0 t0 deathProb inc deathLag 1 n time) i)
            time).getD (argminAbs time (t0 + deathLag)) 0)) ∧
    (argminAbs time (t0 + deathLag) < time.length →
      ¬ time.getD (argminAbs time (t0 + deathLag)) 0 < t0 + deathLag →
      ((deathsSeries sol Y0 t0 n inc deathProb deathLag time true).getD
          (argminAbs time (t0 + deathLag)) []).getD i (some 0) = some 0) := by
  refine ⟨?_, ?_, ?_⟩
  · rw [deathsSeries_getD sol Y0 t0 n inc deathProb deathLag time false k i hk hi]
    simp
  · intro hcond
    rw [deathsSeries_getD sol Y0 t0 n inc deathProb deathLag time true k i hk hi]
    rw [if_pos rfl, if_neg hcond]
  · intro hidx hcond
    rw [deathsSeries_getD sol Y0 t0 n inc deathProb deathLag time true
      (argminAbs time (t0 + deathLag)) i hidx hi]
    rw [if_pos rfl, if_neg hcond, sub_self]

/-- Witness for C5 (amended): the configuration of the counterexample's second
run, checked at `k = 1` (the anchor index, value zero) and the unanchored raw
value with masking off at `k = 2`. -/
theorem deathsSeries_characterization_witness :
    ((deathsSeries (fun _ => [0, 3, 5, 0]) [0, 3, 5, 0] 0 1 [1] [1] 2 [1, 2, 3]
        false).getD 2 []).getD 0 (some 0) =
      some ((cumtrapzL (colOf (newCasesRate (fun _ => [0, 3, 5, 0]) [0, 3, 5, 0] 0
          [1] [1] 2 1 1 [1, 2, 3]) 0) [1, 2, 3]).getD 2 0) ∧
    ((deathsSeries (fun _ => [0, 3, 5, 0]) [0, 3, 5, 0] 0 1 [1] [1] 2 [1, 2, 3]
        true).getD (argminAbs [1, 2, 3] ((0 : ℚ) + 2)) []).getD 0 (some 0) = some 0 :=
  ⟨(deathsSeries_characterization (fun _ => [0, 3, 5, 0]) [0, 3, 5, 0] 0 1 [1] [1] 2
      [1, 2, 3] 2 0 (by decide) (by decide)).1,
   (deathsSeries_characterization (fun _ => [0, 3, 5, 0]) [0, 3, 5, 0] 0 1 [1] [1] 2
      [1, 2, 3] 1 0 (by decide) (by decide)).2.2 (by decide) (by decide)⟩

/-- **C1 (code bug).** The ICU block of `evaluate_solution` builds its
new-admission rate from block index 2 of the lagged state
(`E_icu_lag = np.split(SEIR_icu_lag, 4, axis=-1)[2]`) — the *infectious* (I)
block — although the variable is named `E_icu_lag` and both the
hospitalization block (`Ehl`) and the deaths block (`[1]`) use the exposed
block, and the spec prescribes the same construction for ICU.  Witness
computation: a constant dense solution with `E ≡ 3`, `I ≡ 5`, and identical
probability/duration/lag parameters for hospitalization and ICU: the
hospitalization series evaluates to `3` per cell (E-based) but the ICU series
evaluates to `5` per cell (I-based), where the claimed construction would give
`3`. -/
theorem icuActive_reads_infectious_block :
    icuActive (fun _ => [0, 3, 5, 0]) [0, 3, 5, 0] (-1000) 1 [1] [1] 1 0 [0, 1] false
      = [[some 5], [some 5]] ∧
    hospitalizedActive (fun _ => [0, 3, 5, 0]) [0, 3, 5, 0] (-1000) 1 [1] [1] 1 0 [0, 1]
        false = [[some 3], [some 3]] ∧
    ([[some 5], [some 5]] : List (List (Option ℚ))) ≠ [[some 3], [some 3]] := by
  decide

end SEIRModel
